import Mathlib

/-!
Shallow embedding of `plotter_backend_text` (src/src/lib.rs): a text drawing
backend for the plotters library.  Machine integers are modelled as `Nat`
(for `u32`/`usize`) and `Int` (for `i32`); a Rust `as usize` cast is made
explicit; indexing a `Vec` out of bounds (a Rust panic) is modelled by
returning `none`.
-/

/-- `PixelState` — state of a pixel in the canvas (lib.rs, enum `PixelState`). -/
inductive PixelState where
  /-- The pixel is empty. -/
  | Empty
  /-- The pixel is `-`. -/
  | HLine
  /-- The pixel is `|`. -/
  | VLine
  /-- The pixel is `+`. -/
  | Cross
  /-- The pixel is `.`. -/
  | Pixel
  /-- The pixel is a character. -/
  | Text (c : Char)
  /-- The pixel is a circle, filled `@` or not `O`. -/
  | Circle (filled : Bool)
deriving DecidableEq, Repr

/-- `PixelState::to_char` — the character to draw. -/
def PixelState.to_char : PixelState → Char
  | .Empty => ' '
  | .HLine => '-'
  | .VLine => '|'
  | .Cross => '+'
  | .Pixel => '.'
  | .Text c => c
  | .Circle filled => if filled then '@' else 'O'

/-- `PixelState::update` — updates the state of the pixel with a superposition
of another state.  The Rust `match` arms are tried top to bottom, exactly as
here. -/
def PixelState.update (self new_state : PixelState) : PixelState :=
  match self, new_state with
  | .HLine, .VLine => .Cross
  | .VLine, .HLine => .Cross
  | _, .Circle what => .Circle what
  | .Circle what, _ => .Circle what
  | _, .Pixel => .Pixel
  | .Pixel, _ => .Pixel
  | _, new => new

/-- The "final" cell-state categories of the spec: `Pixel`, `Text`, `Circle`. -/
def PixelState.isFinal : PixelState → Bool
  | .Pixel => true
  | .Text _ => true
  | .Circle _ => true
  | _ => false

/-- Priority rank among the final categories, as the code's match arms order
them: `Circle` beats `Pixel` beats `Text`. -/
def PixelState.finalRank : PixelState → Nat
  | .Circle _ => 2
  | .Pixel => 1
  | _ => 0

/-- `TextDrawingBackend` — the canvas: width, height, and the row-major pixel
buffer. -/
structure TextDrawingBackend where
  /-- Width of the canvas. -/
  size_x : Nat
  /-- Height of the canvas. -/
  size_y : Nat
  /-- Pixels of the canvas. -/
  pixels : List PixelState
deriving DecidableEq, Repr

/-- `TextDrawingBackend::new` — canvas of the given size, all pixels empty. -/
def TextDrawingBackend.new (size_x size_y : Nat) : TextDrawingBackend :=
  { size_x := size_x, size_y := size_y,
    pixels := List.replicate (size_x * size_y) PixelState.Empty }

/-- `TextDrawingBackend::set_state` — set the pixel at the given position,
a no-op when the linear index is out of range.  The index
`pos_x + pos_y * size_x` is computed in `usize`, so it wraps modulo `2^64`
on overflow, as in a Rust release build. -/
def TextDrawingBackend.set_state (b : TextDrawingBackend) (pos_x pos_y : Nat)
    (p : PixelState) : TextDrawingBackend :=
  let index := (pos_x + pos_y * b.size_x) % 2 ^ 64
  if index < b.pixels.length then
    { b with pixels := b.pixels.set index p }
  else b

/-- `TextDrawingBackend::update_state` — merge the given state into the pixel
at the given position, a no-op when the linear index is out of range.  The
index `pos_x + pos_y * size_x` is computed in `usize`, so it wraps modulo
`2^64` on overflow, as in a Rust release build. -/
def TextDrawingBackend.update_state (b : TextDrawingBackend) (pos_x pos_y : Nat)
    (p : PixelState) : TextDrawingBackend :=
  let index := (pos_x + pos_y * b.size_x) % 2 ^ 64
  if index < b.pixels.length then
    { b with pixels := b.pixels.set index ((b.pixels.getD index .Empty).update p) }
  else b

/-- Rust `as usize` applied to an `i32` value: sign-extend and reinterpret
as a 64-bit unsigned integer. -/
def asUsize (i : Int) : Nat := (i % (2 : Int) ^ 64).toNat

/-- Rust `as i32` applied to a `usize` value: truncate to 32 bits and
reinterpret as signed. -/
def asI32 (n : Nat) : Int :=
  if n % 2 ^ 32 < 2 ^ 31 then ((n % 2 ^ 32 : Nat) : Int)
  else ((n % 2 ^ 32 : Nat) : Int) - 2 ^ 32

/-- Rust `str::len`: the number of bytes of the UTF-8 encoding of the text. -/
def utf8Len (text : List Char) : Nat := (text.map Char.utf8Size).sum

/-- The half-open integer range `lo..hi` of a Rust `for` loop (empty when
`hi ≤ lo`). -/
def intRange (lo hi : Int) : List Int :=
  (List.range (hi - lo).toNat).map (fun i => lo + i)

/-- `self.pixels[idx].update(p)` — merge `p` into the pixel at linear index
`idx` by direct indexing; `none` models the Rust panic when `idx` is out of
bounds. -/
def updateAt (pixels : List PixelState) (idx : Nat) (p : PixelState) :
    Option (List PixelState) :=
  if idx < pixels.length then
    some (pixels.set idx ((pixels.getD idx .Empty).update p))
  else none

/-- `TextDrawingBackend::draw_line` (axis-aligned fast paths).  The result is
`none` when neither endpoint coordinate matches and the call delegates to the
external `plotters_backend::rasterizer`; otherwise `some r`, where `r = none`
models a panic from an out-of-bounds index and `r = some c` the updated
canvas.  Note the source computes the linear index as `y * 100 + x` with a
hardcoded stride of `100`, not `self.size_x`. -/
def TextDrawingBackend.draw_line (b : TextDrawingBackend) (f t : Int × Int) :
    Option (Option TextDrawingBackend) :=
  if f.1 = t.1 then
    let x := f.1
    let y0 := min f.2 t.2
    let y1 := max f.2 t.2
    some ((intRange y0 y1).foldlM (fun c y =>
      (updateAt c.pixels (asUsize (y * 100 + x)) .VLine).map
        (fun px => { c with pixels := px })) b)
  else if f.2 = t.2 then
    let y := f.2
    let x0 := min f.1 t.1
    let x1 := max f.1 t.1
    some ((intRange x0 x1).foldlM (fun c x =>
      (updateAt c.pixels (asUsize (y * 100 + x)) .HLine).map
        (fun px => { c with pixels := px })) b)
  else
    none

/-- `TextDrawingBackend::estimate_text_size` — `(text.len() as u32, 1)`: the
UTF-8 byte length of the text truncated to `u32`, paired with height 1.  The
style argument is ignored by the source. -/
def estimate_text_size (text : List Char) : Nat × Nat :=
  (utf8Len text % 2 ^ 32, 1)

/-- Horizontal text anchor (`plotters` `HPos`). -/
inductive HPos where
  | Left
  | Right
  | Center
deriving DecidableEq, Repr

/-- Vertical text anchor (`plotters` `VPos`). -/
inductive VPos where
  | Top
  | Center
  | Bottom
deriving DecidableEq, Repr

/-- The anchored origin computed by `TextDrawingBackend::draw_text`: the
offsets `dx`, `dy` from the anchor, then the clamp `.max(0)` on each axis.
Rust `i32` division truncates toward zero, hence `Int.tdiv`. -/
def text_origin (width height : Int) (h_pos : HPos) (v_pos : VPos)
    (pos : Int × Int) : Int × Int :=
  let dx : Int := match h_pos with
    | .Left => 0
    | .Right => -width
    | .Center => Int.tdiv (-width) 2
  let dy : Int := match v_pos with
    | .Top => 0
    | .Center => Int.tdiv (-height) 2
    | .Bottom => -height
  (max (pos.1 + dx) 0, max (pos.2 + dy) 0)

/-- `TextDrawingBackend::draw_text` — measure the text, compute the anchored
origin, then merge `Text(chr)` at consecutive linear indices starting from
`originY * 100 + originX` (hardcoded stride `100`), by direct indexing;
`none` models the Rust panic on an out-of-bounds index. -/
def TextDrawingBackend.draw_text (b : TextDrawingBackend) (text : List Char)
    (h_pos : HPos) (v_pos : VPos) (pos : Int × Int) :
    Option TextDrawingBackend :=
  let width : Int := asI32 (estimate_text_size text).1
  let height : Int := asI32 (estimate_text_size text).2
  let o := text_origin width height h_pos v_pos pos
  let offset : Int := o.2 * 100 + o.1
  text.enum.foldlM (fun c ic =>
    (updateAt c.pixels (asUsize (offset + (ic.1 : Int))) (.Text ic.2)).map
      (fun px => { c with pixels := px })) b

/-- One output line of `TextDrawingBackend::present`: the `size_x` cells of
row `r` mapped through `to_char`, then the newline appended by `writeln!`;
`none` models the panic when a cell index is out of bounds. -/
def TextDrawingBackend.to_line (b : TextDrawingBackend) (r : Nat) :
    Option (List Char) :=
  ((List.range b.size_x).mapM (fun c =>
    (b.pixels[r * b.size_x + c]?).map PixelState.to_char)).map
    (fun buf => buf ++ [Char.ofNat 10])

/-- `TextDrawingBackend::present` — emit the rows top to bottom.  The first
component is the canvas after the call (the source's loop only reads
`self.pixels`, so it is returned as is); the second is the character stream
written to the sink, one entry per line. -/
def TextDrawingBackend.present (b : TextDrawingBackend) :
    TextDrawingBackend × Option (List (List Char)) :=
  (b, (List.range b.size_y).mapM (fun r => b.to_line r))

/-- C1, counterexample: merging an incoming `Pixel` onto a cell currently
holding `Circle true` keeps `Circle true`; the incoming final state does not
win, so "last write of a final category wins" fails. -/
theorem final_merge_last_write_cex :
    PixelState.update (.Circle true) .Pixel ≠ .Pixel := by
  decide

/-- C1 (amended): merging an incoming final state onto a cell holding a final
state keeps whichever ranks higher (`Circle` over `Pixel` over `Text`); only
when the two states are of the same final category does the incoming state
(with its payload) win. -/
theorem final_merge_rank (a b : PixelState)
    (ha : a.isFinal = true) (hb : b.isFinal = true) :
    a.update b = if b.finalRank < a.finalRank then a else b := by
  cases a <;> cases b <;>
    simp_all [PixelState.isFinal, PixelState.update, PixelState.finalRank]

/-- C1 (amended), witness at current `Circle true`, incoming `Pixel`. -/
theorem final_merge_rank_witness :
    PixelState.update (.Circle true) .Pixel =
      if PixelState.finalRank .Pixel < PixelState.finalRank (.Circle true)
      then PixelState.Circle true else .Pixel :=
  final_merge_rank (.Circle true) .Pixel rfl rfl

/-- C4, counterexample: on a 2×2 canvas, `set_state` at `(3, 0)` has `x ≥ W`
but its linear index `3` is still inside the buffer, so the grid changes. -/
theorem set_state_out_of_bounds_cex :
    2 ≤ 3 ∧
    TextDrawingBackend.set_state (.new 2 2) 3 0 .Pixel ≠ .new 2 2 := by
  constructor
  · decide
  · decide

/-- The `usize` index computation of `set_state` can overflow and wrap back
into the buffer: on a 2×2 canvas, `y = 2^63` gives `0 + 2^63 * 2 ≡ 0`
modulo `2^64`, so the write lands on cell `(0,0)` although `y ≥ H`. -/
theorem set_state_usize_wrap :
    TextDrawingBackend.set_state (.new 2 2) 0 (2 ^ 63) .Pixel ≠ .new 2 2 := by
  decide

/-- C4 (amended): on a canvas whose buffer has `W*H` cells, a write or merge
at `y ≥ H` leaves the grid unchanged provided the `usize` index computation
does not overflow (`x + y*W < 2^64`); with overflow the index wraps modulo
`2^64` and can land back inside the buffer, and `x ≥ W` alone may also write,
wrapping into a later row.  In a release build no write raises: out-of-range
(wrapped) indices are silent no-ops. -/
theorem write_y_past_height_noop_no_overflow (b : TextDrawingBackend)
    (x y : Nat) (s : PixelState) (h : b.pixels.length = b.size_x * b.size_y)
    (hy : b.size_y ≤ y) (hov : x + y * b.size_x < 2 ^ 64) :
    b.set_state x y s = b ∧ b.update_state x y s = b := by
  have hidx : ¬ ((x + y * b.size_x) % 2 ^ 64 < b.pixels.length) := by
    rw [Nat.mod_eq_of_lt hov, h]
    have : b.size_x * b.size_y ≤ y * b.size_x := by
      rw [Nat.mul_comm]
      exact Nat.mul_le_mul_right _ hy
    omega
  constructor
  · exact if_neg hidx
  · exact if_neg hidx

/-- C4 (amended), witness: on a 2×2 canvas a write at `y = 5 ≥ H` (index 10,
no overflow) is a no-op. -/
theorem write_y_past_height_noop_no_overflow_witness :
    TextDrawingBackend.set_state (.new 2 2) 0 5 .Pixel = .new 2 2 ∧
    TextDrawingBackend.update_state (.new 2 2) 0 5 .Pixel = .new 2 2 :=
  write_y_past_height_noop_no_overflow (.new 2 2) 0 5 .Pixel
    (by decide) (by decide) (by decide)

/-- C9: merging `HLine` with `VLine` yields `Cross` in both argument orders. -/
theorem merge_hline_vline_cross :
    PixelState.update .HLine .VLine = .Cross ∧
    PixelState.update .VLine .HLine = .Cross := by
  exact ⟨rfl, rfl⟩

/-- C10: the merge operation is idempotent: merging a state into a cell that
already holds that state (any `Text` or `Circle` payload included) leaves the
cell unchanged. -/
theorem update_idempotent (s : PixelState) : s.update s = s := by
  cases s <;> rfl

/-- C2, failing input: the claim's own example.  On a 10×10 canvas, the
vertical line from `(2,1)` to `(2,4)` takes the vertical branch (so the
outer `some`) but computes the first linear index as `1 * 100 + 2 = 102`
with the hardcoded stride `100`, which is outside the 100-cell buffer: the
code panics (inner `none`) instead of merging `VLine` at rows 1, 2, 3 of
column 2. -/
theorem draw_line_hardcoded_stride_bug :
    TextDrawingBackend.draw_line (.new 10 10) (2, 1) (2, 4) = some none := by
  decide

/-- C3, failing input: on a 10×10 canvas, drawing `"ab"` with Left/Top
anchor at `(99, 0)` writes the first character at linear index 99 and then
panics (`none`) at index 100, one past the end of the buffer, instead of
soft-clipping the write: `draw_text` indexes the pixel buffer directly and
never goes through the bounds-checked `update_state`. -/
theorem draw_text_direct_index_bug :
    TextDrawingBackend.draw_text (.new 10 10) ['a', 'b'] .Left .Top (99, 0)
      = none := by
  decide

/-- C5, counterexample: for the one-character text `"é"` (a two-byte UTF-8
character) the measured size is `(2, 1)`, not `(character count, 1) = (1, 1)`:
the source measures `text.len()`, the byte length. -/
theorem estimate_text_size_charcount_cex :
    estimate_text_size ['é'] ≠ ((['é'] : List Char).length, 1) := by
  decide

/-- All characters of one UTF-8 byte: the byte length is the character
count. -/
theorem utf8Len_ascii (l : List Char) (h : ∀ c ∈ l, c.utf8Size = 1) :
    utf8Len l = l.length := by
  induction l with
  | nil => rfl
  | cons a t ih =>
    have ha := h a (List.mem_cons_self a t)
    have ht := ih (fun x hx => h x (List.mem_cons_of_mem a hx))
    simp only [utf8Len, List.map_cons, List.sum_cons, List.length_cons] at ht ⊢
    omega

/-- C5 (amended): `estimate_text_size` returns the UTF-8 byte length of the
text (truncated to `u32`) paired with height 1; this equals the character
count exactly when every character encodes to a single byte (ASCII). -/
theorem estimate_text_size_bytes (text : List Char) :
    estimate_text_size text = (utf8Len text % 2 ^ 32, 1) ∧
    ((∀ c ∈ text, c.utf8Size = 1) → utf8Len text = text.length) :=
  ⟨rfl, utf8Len_ascii text⟩

/-- C5 (amended), witness at the ASCII text `"ab"`. -/
theorem estimate_text_size_bytes_witness :
    estimate_text_size ['a', 'b'] = (utf8Len ['a', 'b'] % 2 ^ 32, 1) ∧
    utf8Len ['a', 'b'] = (['a', 'b'] : List Char).length :=
  ⟨(estimate_text_size_bytes ['a', 'b']).1,
   (estimate_text_size_bytes ['a', 'b']).2 (by decide)⟩

/-- Rust truncating division of a negated `Nat` by two agrees with negated
`Nat` division. -/
theorem tdiv_neg_coe_two (w : Nat) :
    Int.tdiv (-(w : Int)) 2 = -((w / 2 : Nat) : Int) := by
  cases w with
  | zero => decide
  | succ n =>
    show Int.tdiv (Int.negSucc n) 2 = _
    simp [Int.tdiv]

/-- C6: with measured width `w` and height 1, the text origin is
`(max 0 (px + dx), max 0 (py + dy))` with `dx = 0 / -w / -(w/2)` for
Left/Right/Center and `dy = 0 / -(1/2) = 0 / -1` for Top/Center/Bottom
(truncating division); in particular `"abc"` with Right/Bottom anchor at
`(5,5)` yields origin `(2,4)`. -/
theorem text_origin_anchor (w : Nat) (px py : Int) (hp : HPos) (vp : VPos) :
    (text_origin (w : Int) 1 hp vp (px, py)).1 =
      (match hp with
       | .Left => max px 0
       | .Right => max (px - (w : Int)) 0
       | .Center => max (px - ((w / 2 : Nat) : Int)) 0) ∧
    (text_origin (w : Int) 1 hp vp (px, py)).2 =
      (match vp with
       | .Top => max py 0
       | .Center => max py 0
       | .Bottom => max (py - 1) 0) ∧
    text_origin (asI32 (estimate_text_size ['a', 'b', 'c']).1) 1
      .Right .Bottom (5, 5) = (2, 4) := by
  refine ⟨?_, ?_, by decide⟩
  · cases hp
    · show max (px + 0) 0 = max px 0
      rw [Int.add_zero]
    · show max (px + -(w : Int)) 0 = max (px - (w : Int)) 0
      rw [Int.sub_eq_add_neg]
    · show max (px + Int.tdiv (-(w : Int)) 2) 0
        = max (px - ((w / 2 : Nat) : Int)) 0
      rw [tdiv_neg_coe_two, Int.sub_eq_add_neg]
  · cases vp
    · show max (py + 0) 0 = max py 0
      rw [Int.add_zero]
    · show max (py + Int.tdiv (-(1 : Int)) 2) 0 = max py 0
      rw [show Int.tdiv (-(1 : Int)) 2 = 0 by decide, Int.add_zero]
    · show max (py + -(1 : Int)) 0 = max (py - 1) 0
      rw [Int.sub_eq_add_neg]

/-- Mapping an `Option`-valued function that succeeds everywhere over a list
collects the plain results. -/
theorem list_mapM_option_eq_map {α β : Type} (l : List α) (f : α → Option β)
    (g : α → β) (h : ∀ a ∈ l, f a = some (g a)) :
    l.mapM f = some (l.map g) := by
  induction l with
  | nil => rfl
  | cons a t ih =>
    rw [List.mapM_cons, List.map_cons, h a (List.mem_cons_self a t),
        ih (fun x hx => h x (List.mem_cons_of_mem a hx))]
    rfl

/-- On a canvas whose buffer has `W*H` cells, row `r < H` prints as its `W`
cells mapped through `to_char`, with the newline appended. -/
theorem to_line_eq (b : TextDrawingBackend)
    (h : b.pixels.length = b.size_x * b.size_y) (r : Nat) (hr : r < b.size_y) :
    b.to_line r = some (((List.range b.size_x).map (fun c =>
      (b.pixels.getD (r * b.size_x + c) .Empty).to_char)) ++ [Char.ofNat 10]) := by
  show ((List.range b.size_x).mapM (fun c =>
      (b.pixels[r * b.size_x + c]?).map PixelState.to_char)).map
      (fun buf => buf ++ [Char.ofNat 10]) = _
  rw [list_mapM_option_eq_map (List.range b.size_x)
    (fun c => (b.pixels[r * b.size_x + c]?).map PixelState.to_char)
    (fun c => (b.pixels.getD (r * b.size_x + c) PixelState.Empty).to_char) ?_]
  · rfl
  · intro c hc
    rw [List.mem_range] at hc
    have hidx : r * b.size_x + c < b.pixels.length := by
      rw [h]
      calc r * b.size_x + c < r * b.size_x + b.size_x := by omega
        _ = (r + 1) * b.size_x := by ring
        _ ≤ b.size_y * b.size_x := Nat.mul_le_mul_right _ (by omega)
        _ = b.size_x * b.size_y := Nat.mul_comm _ _
    simp only [List.getElem?_eq_getElem hidx, List.getD_eq_getElem?_getD,
      Option.map_some', Option.getD_some]

/-- C7: on a canvas whose buffer has `W*H` cells, `present` emits exactly `H`
lines, the `r`-th being the `W` cells of row `r` mapped left to right through
the display-character table and terminated by a newline. -/
theorem present_lines (b : TextDrawingBackend)
    (h : b.pixels.length = b.size_x * b.size_y) :
    (b.present).2 = some ((List.range b.size_y).map (fun r =>
      ((List.range b.size_x).map (fun c =>
        (b.pixels.getD (r * b.size_x + c) .Empty).to_char)) ++ [Char.ofNat 10])) := by
  show (List.range b.size_y).mapM (fun r => b.to_line r) = _
  apply list_mapM_option_eq_map
  intro r hr
  rw [List.mem_range] at hr
  exact to_line_eq b h r hr

/-- C7, witness: a freshly constructed 4×2 canvas prints as exactly two lines
of four spaces each. -/
theorem present_lines_witness :
    ((TextDrawingBackend.new 4 2).present).2 =
      some [[' ', ' ', ' ', ' ', Char.ofNat 10],
            [' ', ' ', ' ', ' ', Char.ofNat 10]] := by
  rw [present_lines (TextDrawingBackend.new 4 2) (by decide)]
  decide

/-- C8: `present` leaves the canvas (cells, width, height) unchanged, and a
second `present` with no intervening mutation produces the same output. -/
theorem present_readonly_idempotent (b : TextDrawingBackend) :
    (b.present).1 = b ∧ ((b.present).1.present).2 = (b.present).2 :=
  ⟨rfl, rfl⟩
